import Mathlib

/-!
Verification of the Ad Definition Resolution & Scheduling Engine of
kleinanzeigen-bot (`src/kleinanzeigen_bot/__init__.py`).

The engine is embedded shallowly:

* YAML values are modelled by the inductive `Value` (null, string, integer,
  boolean) with Python truthiness `Value.truthy`.
* Python dictionaries are modelled as association lists
  `List (String × α)` with `lookupA` (dict access) and `setA`
  (dict item assignment, replacing in place and appending new keys at the
  end, as Python dicts preserve insertion order).
* Timestamps are modelled as integers counting seconds; Python's
  `timedelta.days` floors the quotient by 86400, which is `Int.fdiv`.
* Glob expansion and the file system are external collaborators; they enter
  as per-pattern lists of match results.
-/

namespace KleinanzeigenBot

/-- A YAML/JSON scalar value as used in ad definition files. -/
inductive Value where
  | vnull
  | vstr (s : String)
  | vint (n : Int)
  | vbool (b : Bool)
deriving Repr, DecidableEq

/-- Python truthiness of a `Value`: `None`, `""`, `0` and `False` are falsy. -/
def Value.truthy : Value → Bool
  | .vnull => false
  | .vstr s => s ≠ ""
  | .vint n => n ≠ 0
  | .vbool b => b

/-- Digit value of a character, if it is one of `0`-`9`. -/
def digitVal (c : Char) : Option Nat :=
  if 48 ≤ c.toNat ∧ c.toNat ≤ 57 then some (c.toNat - 48) else none

/-- Accumulating decimal parser; `none` both for the empty digit list and
for a non-digit character. -/
def parseDigitsAux : Option Nat → List Char → Option Nat
  | acc, [] => acc
  | acc, c :: cs =>
    match digitVal c with
    | none => none
    | some d =>
      match acc with
      | none => parseDigitsAux (some d) cs
      | some n => parseDigitsAux (some (10 * n + d)) cs

/-- Parse a non-empty all-digit character list into a natural number. -/
def parseDigits (cs : List Char) : Option Nat :=
  parseDigitsAux none cs

/-- Python `int(...)` applied to a string: an optional sign followed by
decimal digits; `none` models a raised `ValueError`. -/
def pyIntOfStr (s : String) : Option Int :=
  match s.toList with
  | '-' :: rest => (parseDigits rest).map (fun n => -(n : Int))
  | '+' :: rest => (parseDigits rest).map (fun n => (n : Int))
  | cs => (parseDigits cs).map (fun n => (n : Int))

/-- Python's `int(...)` coercion on a `Value`; `none` models a raised
`ValueError`/`TypeError`. -/
def pyToInt : Value → Option Int
  | .vint n => some n
  | .vstr s => pyIntOfStr s
  | .vbool b => some (if b then 1 else 0)
  | .vnull => none

/-- Dictionary lookup on an association list (Python `d[k]` / `d.get(k)`). -/
def lookupA {α : Type} (k : String) : List (String × α) → Option α
  | [] => none
  | (k₁, v) :: t => if k₁ = k then some v else lookupA k t

/-- Dictionary item assignment `d[k] = v`: replaces the binding in place if
the key exists (Python dicts keep the original insertion position), else
appends the new binding at the end. -/
def setA {α : Type} (k : String) (v : α) : List (String × α) → List (String × α)
  | [] => [(k, v)]
  | (k₁, v₁) :: t => if k₁ = k then (k₁, v) :: t else (k₁, v₁) :: setA k v t

/-- `d[k]` where a missing key reads as `None` (used for `safe_get`). -/
def getV (k : String) (m : List (String × Value)) : Value :=
  (lookupA k m).getD .vnull

/-! ## Selection policy, `due` mode (`load_ads`, lines 243-259)

```python
if self.ads_selector == "due":
    if ad_cfg["updated_on"]:
        last_updated_on = parse_datetime(ad_cfg["updated_on"])
    elif ad_cfg["created_on"]:
        last_updated_on = parse_datetime(ad_cfg["created_on"])
    else:
        last_updated_on = None
    if last_updated_on:
        ad_age = datetime.utcnow() - last_updated_on
        if ad_age.days <= ad_cfg["republication_interval"]:
            continue   # skipped, i.e. not selected
```
Timestamps are seconds; `timedelta.days` is the floored quotient of the
difference by 86400 seconds, i.e. `Int.fdiv`. An absent or empty (falsy)
timestamp string is `none`. -/

/-- The scheduling-relevant fields of a resolved ad definition. -/
structure AdSchedule where
  updated_on : Option Int
  created_on : Option Int
  republication_interval : Int
deriving Repr, DecidableEq

/-- `last_updated_on` of the `due` check: `updated_on` if truthy, else
`created_on` if truthy, else `None`. -/
def lastUpdatedOn (ad : AdSchedule) : Option Int :=
  match ad.updated_on with
  | some t => some t
  | none => ad.created_on

/-- Age of the ad in whole days (`(datetime.utcnow() - last_updated_on).days`),
Python `timedelta.days` floors. -/
def adAgeDays (now last : Int) : Int :=
  Int.fdiv (now - last) 86400

/-- Whether the `due`-mode filter of `load_ads` keeps the ad (`true`) or
skips it via `continue` (`false`). -/
def dueSelected (now : Int) (ad : AdSchedule) : Bool :=
  match lastUpdatedOn ad with
  | none => true
  | some last => !(adAgeDays now last ≤ ad.republication_interval)

/-! ## Validator (`load_ads`, lines 261-285)

```python
ad_cfg["description"] = descr_prefix + (ad_cfg["description"] or "") + descr_suffix
ensure(len(ad_cfg["description"]) <= 4000, ...)
assert_one_of("type", {"OFFER", "WANTED"})
assert_min_len("title", 10)
assert_has_value("description")
assert_one_of("price_type", {"FIXED", "NEGOTIABLE", "GIVE_AWAY", "NOT_APPLICABLE"})
if ad_cfg["price_type"] == "GIVE_AWAY":
    ensure(not safe_get(ad_cfg, "price"), ...)
elif ad_cfg["price_type"] == "FIXED":
    assert_has_value("price")
assert_one_of("shipping_type", {"PICKUP", "SHIPPING", "NOT_APPLICABLE"})
assert_has_value("contact.name")
assert_has_value("republication_interval")
```
`ensure` raises on the first failed check, so the whole block is the
first-failure cascade embedded below. Note that the 4000-character bound on
the composed description is checked *before* `assert_one_of("type", ...)`. -/

/-- The typed fields of a resolved ad definition that the validation and
derived-field stages of `load_ads` read. `none`/`""`/`Value.vnull` model
absent or null fields (all of them Python-falsy). -/
structure AdCfg where
  type_ : String
  title : String
  description : Option String
  price : Option String
  price_type : String
  shipping_type : String
  shipping_costs : Option String
  contact_name : String
  republication_interval : Option Int
  id : Value
  category : String
  images : List String
deriving Repr, DecidableEq

/-- Python truthiness of an optional string field. -/
def truthyS : Option String → Bool
  | none => false
  | some s => s ≠ ""

/-- Python truthiness of an optional integer field. -/
def truthyI : Option Int → Bool
  | none => false
  | some n => n ≠ 0

/-- Line 261: `descr_prefix + (ad_cfg["description"] or "") + descr_suffix`,
assigned into the resolved definition's `description` before any check. -/
def composedDescription (pfx sfx : String) (ad : AdCfg) : String :=
  pfx ++ (ad.description.getD "") ++ sfx

/-- Identifier of the validation rule whose `ensure` call raised. -/
inductive VRule where
  | descrTooLong
  | badType
  | titleTooShort
  | descrEmpty
  | badPriceType
  | badPrice
  | badShippingType
  | contactNameEmpty
  | noRepubInterval
deriving Repr, DecidableEq

/-- The validation cascade of `load_ads` (lines 261-285): returns the rule of
the first `ensure` that fails, or `none` when the ad passes. -/
def validateAd (pfx sfx : String) (ad : AdCfg) : Option VRule :=
  if 4000 < (composedDescription pfx sfx ad).length then some .descrTooLong
  else if ¬(ad.type_ = "OFFER" ∨ ad.type_ = "WANTED") then some .badType
  else if ad.title.length < 10 then some .titleTooShort
  else if composedDescription pfx sfx ad = "" then some .descrEmpty
  else if ¬(ad.price_type = "FIXED" ∨ ad.price_type = "NEGOTIABLE" ∨
            ad.price_type = "GIVE_AWAY" ∨ ad.price_type = "NOT_APPLICABLE") then
    some .badPriceType
  else if (ad.price_type = "GIVE_AWAY" ∧ truthyS ad.price = true) ∨
          (ad.price_type = "FIXED" ∧ truthyS ad.price = false) then
    some .badPrice
  else if ¬(ad.shipping_type = "PICKUP" ∨ ad.shipping_type = "SHIPPING" ∨
            ad.shipping_type = "NOT_APPLICABLE") then
    some .badShippingType
  else if ad.contact_name = "" then some .contactNameEmpty
  else if truthyI ad.republication_interval = false then some .noRepubInterval
  else none

/-- The validation rules as an explicit ordered list of
(rule identifier, broken-predicate) pairs, in the order the source
evaluates them. -/
def rulesInOrder (pfx sfx : String) : List (VRule × (AdCfg → Bool)) :=
  [ (.descrTooLong, fun ad => decide (4000 < (composedDescription pfx sfx ad).length)),
    (.badType, fun ad => decide (¬(ad.type_ = "OFFER" ∨ ad.type_ = "WANTED"))),
    (.titleTooShort, fun ad => decide (ad.title.length < 10)),
    (.descrEmpty, fun ad => decide (composedDescription pfx sfx ad = "")),
    (.badPriceType, fun ad => decide (¬(ad.price_type = "FIXED" ∨ ad.price_type = "NEGOTIABLE" ∨
            ad.price_type = "GIVE_AWAY" ∨ ad.price_type = "NOT_APPLICABLE"))),
    (.badPrice, fun ad => decide ((ad.price_type = "GIVE_AWAY" ∧ truthyS ad.price = true) ∨
          (ad.price_type = "FIXED" ∧ truthyS ad.price = false))),
    (.badShippingType, fun ad => decide (¬(ad.shipping_type = "PICKUP" ∨ ad.shipping_type = "SHIPPING" ∨
            ad.shipping_type = "NOT_APPLICABLE"))),
    (.contactNameEmpty, fun ad => decide (ad.contact_name = "")),
    (.noRepubInterval, fun ad => decide (truthyI ad.republication_interval = false)) ]

/-- First rule of an ordered rule list whose broken-predicate holds. -/
def firstBroken (rules : List (VRule × (AdCfg → Bool))) (ad : AdCfg) : Option VRule :=
  match rules with
  | [] => none
  | (r, p) :: rest => if p ad then some r else firstBroken rest ad

/-- All rules other than the conditional price rule pass (used to isolate
the price rule in C7). -/
def otherRulesOk (pfx sfx : String) (ad : AdCfg) : Prop :=
  ¬(4000 < (composedDescription pfx sfx ad).length) ∧
  (ad.type_ = "OFFER" ∨ ad.type_ = "WANTED") ∧
  ¬(ad.title.length < 10) ∧
  composedDescription pfx sfx ad ≠ "" ∧
  (ad.shipping_type = "PICKUP" ∨ ad.shipping_type = "SHIPPING" ∨
    ad.shipping_type = "NOT_APPLICABLE") ∧
  ad.contact_name ≠ "" ∧
  truthyI ad.republication_interval = true

instance (pfx sfx : String) (ad : AdCfg) : Decidable (otherRulesOk pfx sfx ad) := by
  unfold otherRulesOk; infer_instance

/-- A 4001-character description body. -/
def longDescr : String := String.mk (List.replicate 4001 'a')

/-- An ad definition that breaks the type rule (`type = "INVALID"`) and the
4000-character bound of the description rule at the same time. -/
def adBadTypeLongDescr : AdCfg :=
  { type_ := "INVALID"
    title := "0123456789"
    description := some longDescr
    price := none
    price_type := "NEGOTIABLE"
    shipping_type := "PICKUP"
    shipping_costs := none
    contact_name := "John Doe"
    republication_interval := some 7
    id := .vnull
    category := ""
    images := [] }

end KleinanzeigenBot

namespace KleinanzeigenBot

/-- C1: under selection mode DUE an ad with neither `updated_on` nor
`created_on` set is included; otherwise, with `last_updated` being
`updated_on` if set else `created_on` and `age_days` the floored day
difference, it is included iff `age_days > republication_interval`.
In particular with `republication_interval = 7` an ad last updated 8 days
ago is selected and one updated exactly 7 days ago is not. -/
theorem due_selection_correct :
    (∀ (now : Int) (ad : AdSchedule),
      dueSelected now ad = true ↔
        (lastUpdatedOn ad = none ∨
          ∃ last, lastUpdatedOn ad = some last ∧
            adAgeDays now last > ad.republication_interval)) ∧
    (∀ now : Int,
      dueSelected now ⟨some (now - 8 * 86400), none, 7⟩ = true ∧
      dueSelected now ⟨some (now - 7 * 86400), none, 7⟩ = false ∧
      dueSelected now ⟨none, none, 7⟩ = true) := by
  constructor
  · intro now ad
    unfold dueSelected
    cases h : lastUpdatedOn ad with
    | none => simp [h]
    | some last =>
      simp only [Bool.not_eq_true']
      constructor
      · intro hsel
        exact Or.inr ⟨last, rfl, by
          simpa [decide_eq_false_iff_not, Int.not_le] using hsel⟩
      · rintro (hnone | ⟨l, hl, hgt⟩)
        · exact absurd hnone (by simp)
        · cases hl
          simpa [decide_eq_false_iff_not, Int.not_le] using hgt
  · intro now
    refine ⟨?_, ?_, ?_⟩
    · show (!(adAgeDays now (now - 8 * 86400) ≤ 7)) = true
      have h8 : adAgeDays now (now - 8 * 86400) = 8 := by
        unfold adAgeDays
        have : now - (now - 8 * 86400) = 8 * 86400 := by ring
        rw [this]
        decide
      rw [h8]
      decide
    · show (!(adAgeDays now (now - 7 * 86400) ≤ 7)) = false
      have h7 : adAgeDays now (now - 7 * 86400) = 7 := by
        unfold adAgeDays
        have : now - (now - 7 * 86400) = 7 * 86400 := by ring
        rw [this]
        decide
      rw [h7]
      decide
    · rfl

end KleinanzeigenBot

namespace KleinanzeigenBot

lemma composedDescription_adBadTypeLongDescr_length :
    (composedDescription "" "" adBadTypeLongDescr).length = 4001 := by
  show ("" ++ (some longDescr).getD "" ++ "").length = 4001
  rw [String.length_append, String.length_append]
  norm_num [longDescr, String.mk_length]

/-- C2 counterexample: the ad `adBadTypeLongDescr` violates both the type
rule (rule 1 of the claim) and the 4000-character half of the description
rule (rule 3 of the claim), yet validation reports the description-length
failure, not the type failure — the code checks the length bound before the
type rule. -/
theorem validation_order_counterexample :
    validateAd "" "" adBadTypeLongDescr = some VRule.descrTooLong ∧
    validateAd "" "" adBadTypeLongDescr ≠ some VRule.badType := by
  have h : validateAd "" "" adBadTypeLongDescr = some VRule.descrTooLong := by
    unfold validateAd
    rw [if_pos]
    rw [composedDescription_adBadTypeLongDescr_length]
    decide
  exact ⟨h, by rw [h]; decide⟩

/-- C2 amended: validation raises on the first broken rule, the rules being
evaluated in exactly this order: (0) composed description at most 4000
characters; (1) type in {OFFER, WANTED}; (2) title length >= 10;
(3) composed description non-empty; (4) price_type in the allowed set;
(5) the conditional price rule; (6) shipping_type in the allowed set;
(7) contact.name non-empty; (8) republication_interval truthy. For an ad
that violates the type rule and the description-emptiness rule (but not the
4000-character bound) the reported failure is the type failure. -/
theorem validation_order_amended :
    (∀ (pfx sfx : String) (ad : AdCfg),
      validateAd pfx sfx ad = firstBroken (rulesInOrder pfx sfx) ad) ∧
    (∀ (pfx sfx : String) (ad : AdCfg),
      ¬(4000 < (composedDescription pfx sfx ad).length) →
      ¬(ad.type_ = "OFFER" ∨ ad.type_ = "WANTED") →
      validateAd pfx sfx ad = some VRule.badType) := by
  constructor
  · intro pfx sfx ad
    simp only [validateAd, rulesInOrder, firstBroken, decide_eq_true_eq]
  · intro pfx sfx ad hlen htype
    unfold validateAd
    rw [if_neg hlen, if_pos htype]

/-- C2 amended witness at a concrete input: an ad with an invalid type and
an empty composed description is reported with the type failure. -/
theorem validation_order_amended_witness :
    validateAd "" ""
      { adBadTypeLongDescr with description := none } = some VRule.badType :=
  validation_order_amended.2 "" "" { adBadTypeLongDescr with description := none }
    (by decide) (by decide)

set_option maxHeartbeats 1000000 in
/-- C7: for every resolved ad with `price_type = GIVE_AWAY` and price
non-empty, validation fails; if additionally every rule other than the
price rule passes, validation fails iff the price is non-empty; and for
every resolved ad with `price_type = FIXED` and absent/empty price,
validation fails. -/
theorem price_rule_validation :
    (∀ (pfx sfx : String) (ad : AdCfg), ad.price_type = "GIVE_AWAY" →
      truthyS ad.price = true → validateAd pfx sfx ad ≠ none) ∧
    (∀ (pfx sfx : String) (ad : AdCfg), ad.price_type = "GIVE_AWAY" →
      otherRulesOk pfx sfx ad →
      (validateAd pfx sfx ad ≠ none ↔ truthyS ad.price = true)) ∧
    (∀ (pfx sfx : String) (ad : AdCfg), ad.price_type = "FIXED" →
      truthyS ad.price = false → validateAd pfx sfx ad ≠ none) := by
  refine ⟨?_, ?_, ?_⟩
  · intro pfx sfx ad hpt hp
    unfold validateAd
    split_ifs <;> simp_all
  · intro pfx sfx ad hpt hok
    obtain ⟨h1, h2, h3, h4, h5, h6, h7⟩ := hok
    constructor
    · intro hfail
      by_contra hp
      apply hfail
      unfold validateAd
      rw [if_neg h1, if_neg (by simp [h2]), if_neg (by simp [h3]),
        if_neg h4, if_neg (by simp [hpt]), if_neg (by simp [hpt, hp]),
        if_neg (by simp [h5]), if_neg h6, if_neg (by simp [h7])]
    · intro hp
      unfold validateAd
      split_ifs <;> simp_all
  · intro pfx sfx ad hpt hp
    unfold validateAd
    split_ifs <;> simp_all

/-- An ad with `price_type = GIVE_AWAY`, empty price and all other rules
passing. -/
def adGiveAway : AdCfg :=
  { type_ := "OFFER"
    title := "0123456789"
    description := some "nice thing"
    price := none
    price_type := "GIVE_AWAY"
    shipping_type := "PICKUP"
    shipping_costs := none
    contact_name := "John Doe"
    republication_interval := some 7
    id := .vnull
    category := ""
    images := [] }

/-- C7 witness: for the concrete give-away ad with empty price, validation
succeeds (the iff instantiated), and the same ad with `price_type = FIXED`
fails validation. -/
theorem price_rule_validation_witness :
    (validateAd "" "" adGiveAway ≠ none ↔ truthyS adGiveAway.price = true) ∧
    validateAd "" "" { adGiveAway with price_type := "FIXED" } ≠ none :=
  ⟨price_rule_validation.2.1 "" "" adGiveAway (by decide) (by decide),
   price_rule_validation.2.2 "" "" { adGiveAway with price_type := "FIXED" }
     (by decide) (by decide)⟩

end KleinanzeigenBot

namespace KleinanzeigenBot

/-! ## Defaults merger (`apply_defaults`, called at lines 230-233)

```python
ad_cfg = copy.deepcopy(ad_cfg_orig)
apply_defaults(ad_cfg, self.config["ad_defaults"],
               ignore = lambda k, _: k == "description",
               override = lambda _, v: v == "")
apply_defaults(ad_cfg, ad_fields)
```
`apply_defaults` itself lives in the `utils` module, which is not part of
the sources at hand; it is modelled from the spec below. -/

/-- Modelled from the spec: the `apply_defaults` function of the missing
`utils` module. For each field of the layer's source in order, when the
field is absent from the accumulating result it is copied in; when it is
present, it is overwritten exactly when the layer's override predicate
accepts the current value; an ignored field is excluded from the layer
entirely. One step of that loop. -/
def applyStep (target : List (String × Value)) (k : String) (v : Value)
    (ig ov : String → Value → Bool) : List (String × Value) :=
  if ig k v then target
  else
    match lookupA k target with
    | none => setA k v target
    | some cur => if ov k cur then setA k v target else target

/-- Modelled from the spec: `apply_defaults(target, defaults, ignore,
override)` — folds `applyStep` over the layer's fields in order and returns
the merged mapping. -/
def applyDefaults (target defaults : List (String × Value))
    (ig ov : String → Value → Bool) : List (String × Value) :=
  match defaults with
  | [] => target
  | (k, v) :: rest => applyDefaults (applyStep target k v ig ov) rest ig ov

/-- The ignore predicate of the first merge call:
`lambda k, _: k == "description"`. -/
def igDescription : String → Value → Bool := fun k _ => k = "description"

/-- The override predicate of the first merge call:
`lambda _, v: v == ""` (the current value is the empty string). -/
def ovEmptyStr : String → Value → Bool := fun _ cur => cur = .vstr ""

/-- Trivial ignore predicate (second merge call uses the defaults). -/
def igNone : String → Value → Bool := fun _ _ => false

/-- Trivial override predicate: later layers only fill absent fields. -/
def ovNone : String → Value → Bool := fun _ _ => false

/-- The full defaults cascade of `load_ads` (lines 231-233): global
`ad_defaults` first (description ignored, empty strings overridable), then
the schema field-default table `ad_fields`. -/
def resolveDefaults (raw adDefaults adFields : List (String × Value)) :
    List (String × Value) :=
  applyDefaults (applyDefaults raw adDefaults igDescription ovEmptyStr)
    adFields igNone ovNone

/-- A layer entry (k, v) leaves `t` unchanged: it is ignored, or the key is
present with a value the override predicate rejects or that already equals
the layer's value. -/
def noOpAt (t : List (String × Value)) (ig ov : String → Value → Bool)
    (k : String) (v : Value) : Prop :=
  ig k v = true ∨ ∃ cur, lookupA k t = some cur ∧ (ov k cur = false ∨ cur = v)

lemma lookupA_setA_self {α : Type} (k : String) (v : α)
    (t : List (String × α)) : lookupA k (setA k v t) = some v := by
  induction t with
  | nil => simp [setA, lookupA]
  | cons hd tl ih =>
    obtain ⟨k₁, v₁⟩ := hd
    by_cases h : k₁ = k
    · subst h; simp [setA, lookupA]
    · simp [setA, lookupA, h, ih]

lemma lookupA_setA_ne {α : Type} {k k₀ : String} (h : k ≠ k₀) (v : α)
    (t : List (String × α)) : lookupA k (setA k₀ v t) = lookupA k t := by
  induction t with
  | nil => simp [setA, lookupA, Ne.symm h]
  | cons hd tl ih =>
    obtain ⟨k₁, v₁⟩ := hd
    by_cases h₁ : k₁ = k₀
    · subst h₁
      simp [setA, lookupA, Ne.symm h]
    · simp [setA, lookupA, h₁, ih]

lemma setA_lookup_eq {α : Type} {k : String} {v : α} {t : List (String × α)}
    (h : lookupA k t = some v) : setA k v t = t := by
  induction t with
  | nil => simp [lookupA] at h
  | cons hd tl ih =>
    obtain ⟨k₁, v₁⟩ := hd
    by_cases h₁ : k₁ = k
    · subst h₁
      simp [lookupA] at h
      simp [setA, h]
    · simp [lookupA, h₁] at h
      simp [setA, h₁, ih h]

lemma applyStep_eq_of_noOpAt {t : List (String × Value)}
    {ig ov : String → Value → Bool} {k : String} {v : Value}
    (h : noOpAt t ig ov k v) : applyStep t k v ig ov = t := by
  rcases h with hig | ⟨cur, hcur, hrest⟩
  · simp [applyStep, hig]
  · unfold applyStep
    rcases hrest with hov | rfl
    · simp [hcur, hov]
    · by_cases hig : ig k cur = true
      · simp [hig]
      · simp [hig, hcur, setA_lookup_eq hcur]

lemma applyDefaults_eq_of_noOp {t ds : List (String × Value)}
    {ig ov : String → Value → Bool}
    (h : ∀ p ∈ ds, noOpAt t ig ov p.1 p.2) : applyDefaults t ds ig ov = t := by
  induction ds with
  | nil => rfl
  | cons hd tl ih =>
    obtain ⟨k, v⟩ := hd
    have hstep : applyStep t k v ig ov = t :=
      applyStep_eq_of_noOpAt (h (k, v) (List.mem_cons_self _ _))
    unfold applyDefaults
    rw [hstep]
    exact ih (fun p hp => h p (List.mem_cons_of_mem _ hp))

lemma lookupA_applyStep_ne {t : List (String × Value)}
    {ig ov : String → Value → Bool} {k k₀ : String} {v : Value}
    (h : k ≠ k₀) : lookupA k (applyStep t k₀ v ig ov) = lookupA k t := by
  unfold applyStep
  split_ifs with hig
  · rfl
  · cases hcur : lookupA k₀ t with
    | none => simp [lookupA_setA_ne h]
    | some cur =>
      by_cases hov : ov k₀ cur = true
      · simp [hov, lookupA_setA_ne h]
      · simp [hov]

lemma lookupA_applyDefaults_not_mem {t ds : List (String × Value)}
    {ig ov : String → Value → Bool} {k : String}
    (h : k ∉ ds.map Prod.fst) :
    lookupA k (applyDefaults t ds ig ov) = lookupA k t := by
  induction ds generalizing t with
  | nil => rfl
  | cons hd tl ih =>
    obtain ⟨k₀, v⟩ := hd
    simp only [List.map_cons, List.mem_cons] at h
    push_neg at h
    unfold applyDefaults
    rw [ih h.2, lookupA_applyStep_ne h.1]

lemma applyStep_post (t : List (String × Value))
    (ig ov : String → Value → Bool) (k : String) (v : Value) :
    noOpAt (applyStep t k v ig ov) ig ov k v := by
  unfold noOpAt applyStep
  by_cases hig : ig k v = true
  · exact Or.inl hig
  · simp only [hig, if_false]
    cases hcur : lookupA k t with
    | none => exact Or.inr ⟨v, by simp [lookupA_setA_self], Or.inr rfl⟩
    | some cur =>
      by_cases hov : ov k cur = true
      · exact Or.inr ⟨v, by simp [hov, lookupA_setA_self], Or.inr rfl⟩
      · exact Or.inr ⟨cur, by simp [hov, hcur],
          Or.inl (by simpa using hov)⟩

lemma noOpAt_of_lookup_eq {t t₁ : List (String × Value)}
    {ig ov : String → Value → Bool} {k : String} {v : Value}
    (hl : lookupA k t₁ = lookupA k t) (h : noOpAt t ig ov k v) :
    noOpAt t₁ ig ov k v := by
  rcases h with hig | ⟨cur, hcur, hrest⟩
  · exact Or.inl hig
  · exact Or.inr ⟨cur, hl.trans hcur, hrest⟩

lemma applyDefaults_post {ds : List (String × Value)}
    (hnd : (ds.map Prod.fst).Nodup) (t : List (String × Value))
    (ig ov : String → Value → Bool) :
    ∀ p ∈ ds, noOpAt (applyDefaults t ds ig ov) ig ov p.1 p.2 := by
  induction ds generalizing t with
  | nil => intro p hp; cases hp
  | cons hd tl ih =>
    obtain ⟨k, v⟩ := hd
    simp only [List.map_cons, List.nodup_cons] at hnd
    intro p hp
    rcases List.mem_cons.mp hp with rfl | hp₁
    · have hstep := applyStep_post t ig ov k v
      unfold applyDefaults
      exact noOpAt_of_lookup_eq (lookupA_applyDefaults_not_mem hnd.1) hstep
    · exact ih hnd.2 (applyStep t k v ig ov) p hp₁

lemma lookupA_applyDefaults_ovNone {t ds : List (String × Value)}
    {ig : String → Value → Bool} {k : String} {w : Value}
    (h : lookupA k t = some w) :
    lookupA k (applyDefaults t ds ig ovNone) = some w := by
  induction ds generalizing t with
  | nil => exact h
  | cons hd tl ih =>
    obtain ⟨k₀, v⟩ := hd
    unfold applyDefaults
    apply ih
    by_cases hk : k = k₀
    · subst hk
      unfold applyStep
      split_ifs with hig
      · exact h
      · rw [h]
        simp [ovNone, h]
    · rw [lookupA_applyStep_ne hk]
      exact h

end KleinanzeigenBot

namespace KleinanzeigenBot

/-- C6: the defaults merge of `load_ads` is idempotent: for every raw
definition and fixed layers (global `ad_defaults` with the call site's
ignore/override predicates, then the schema field-default table
`ad_fields`), merging the already-merged result against the same layers
yields the same result. The layers have distinct keys since they come from
Python dictionaries. -/
theorem defaults_merge_idempotent
    (raw adDefaults adFields : List (String × Value))
    (hd : (adDefaults.map Prod.fst).Nodup)
    (hf : (adFields.map Prod.fst).Nodup) :
    resolveDefaults (resolveDefaults raw adDefaults adFields)
      adDefaults adFields = resolveDefaults raw adDefaults adFields := by
  unfold resolveDefaults
  have h1 : applyDefaults
      (applyDefaults (applyDefaults raw adDefaults igDescription ovEmptyStr)
        adFields igNone ovNone)
      adDefaults igDescription ovEmptyStr =
      applyDefaults (applyDefaults raw adDefaults igDescription ovEmptyStr)
        adFields igNone ovNone := by
    apply applyDefaults_eq_of_noOp
    intro p hp
    have hpost := applyDefaults_post hd raw igDescription ovEmptyStr p hp
    rcases hpost with hig | ⟨cur, hcur, hrest⟩
    · exact Or.inl hig
    · exact Or.inr ⟨cur, lookupA_applyDefaults_ovNone hcur, hrest⟩
  rw [h1]
  apply applyDefaults_eq_of_noOp
  intro p hp
  exact applyDefaults_post hf
    (applyDefaults raw adDefaults igDescription ovEmptyStr) igNone ovNone p hp

/-- C6 witness: idempotence at a concrete raw definition and concrete
layers exercising the empty-string override, the description ignore and the
fill-absent behaviour. -/
theorem defaults_merge_idempotent_witness :
    resolveDefaults
      (resolveDefaults
        [("title", Value.vstr "my ad"), ("price", Value.vstr ""),
         ("description", Value.vstr "")]
        [("price", Value.vstr "5"), ("description", Value.vstr "ignored"),
         ("active", Value.vbool true)]
        [("title", Value.vstr ""), ("id", Value.vnull),
         ("shipping_type", Value.vstr "SHIPPING")])
      [("price", Value.vstr "5"), ("description", Value.vstr "ignored"),
       ("active", Value.vbool true)]
      [("title", Value.vstr ""), ("id", Value.vnull),
       ("shipping_type", Value.vstr "SHIPPING")] =
    resolveDefaults
      [("title", Value.vstr "my ad"), ("price", Value.vstr ""),
       ("description", Value.vstr "")]
      [("price", Value.vstr "5"), ("description", Value.vstr "ignored"),
       ("active", Value.vbool true)]
      [("title", Value.vstr ""), ("id", Value.vnull),
       ("shipping_type", Value.vstr "SHIPPING")] :=
  defaults_merge_idempotent _ _ _ (by decide) (by decide)

end KleinanzeigenBot

namespace KleinanzeigenBot

/-! ## Category resolver (`load_config` lines 332-334, `load_ads` lines 290-291)

```python
self.categories = utils.load_dict_from_module(resources, "categories.yaml", "categories")
if self.config["categories"]:
    self.categories.update(self.config["categories"])
...
if ad_cfg["category"]:
    ad_cfg["category"] = self.categories.get(ad_cfg["category"], ad_cfg["category"])
```
-/

/-- Python `base.update(overrides)`: every binding of `overrides` is set on
`base` in order (existing keys keep their position, new keys append). -/
def updateDict {α : Type} (base overrides : List (String × α)) :
    List (String × α) :=
  match overrides with
  | [] => base
  | (k, v) :: rest => updateDict (setA k v base) rest

/-- The category table of `load_config`: the bundled `categories.yaml`
table overlaid by user-supplied overrides, user entries winning. -/
def buildCategories (bundled user : List (String × String)) :
    List (String × String) :=
  updateDict bundled user

/-- The category resolver of `load_ads`:
`self.categories.get(value, value)`. -/
def resolveCategory (cats : List (String × String)) (v : String) : String :=
  (lookupA v cats).getD v

lemma lookupA_eq_none_of_not_mem {α : Type} {k : String}
    {l : List (String × α)} (h : k ∉ l.map Prod.fst) : lookupA k l = none := by
  induction l with
  | nil => rfl
  | cons hd tl ih =>
    obtain ⟨k₁, v₁⟩ := hd
    simp only [List.map_cons, List.mem_cons] at h
    push_neg at h
    simp [lookupA, Ne.symm h.1, ih h.2]

lemma lookupA_updateDict {α : Type} {user : List (String × α)}
    (hu : (user.map Prod.fst).Nodup) (base : List (String × α)) (k : String) :
    lookupA k (updateDict base user) =
      match lookupA k user with
      | some c => some c
      | none => lookupA k base := by
  induction user generalizing base with
  | nil => simp [updateDict, lookupA]
  | cons hd tl ih =>
    obtain ⟨k₀, v₀⟩ := hd
    simp only [List.map_cons, List.nodup_cons] at hu
    unfold updateDict
    rw [ih hu.2]
    by_cases hk : k₀ = k
    · subst hk
      rw [lookupA_eq_none_of_not_mem hu.1, lookupA_setA_self]
      simp [lookupA]
    · rw [lookupA_setA_ne (Ne.symm hk)]
      simp [lookupA, hk]

end KleinanzeigenBot

namespace KleinanzeigenBot

/-- C8: for every value given to the category resolver over the table built
from the bundled entries overlaid with the user's overrides (user entries
winning on key collision): a value that is a key of the table resolves to
the mapped code, any other value is returned unchanged (the resolver is a
total function, so no exception is raised). -/
theorem category_resolution_correct :
    (∀ (bundled user : List (String × String)) (v code : String),
      lookupA v (buildCategories bundled user) = some code →
      resolveCategory (buildCategories bundled user) v = code) ∧
    (∀ (bundled user : List (String × String)) (v : String),
      lookupA v (buildCategories bundled user) = none →
      resolveCategory (buildCategories bundled user) v = v) ∧
    (∀ (bundled user : List (String × String)),
      (user.map Prod.fst).Nodup → ∀ k,
      (∀ c, lookupA k user = some c →
        lookupA k (buildCategories bundled user) = some c) ∧
      (lookupA k user = none →
        lookupA k (buildCategories bundled user) = lookupA k bundled)) := by
  refine ⟨?_, ?_, ?_⟩
  · intro bundled user v code h
    simp [resolveCategory, h]
  · intro bundled user v h
    simp [resolveCategory, h]
  · intro bundled user hu k
    unfold buildCategories
    refine ⟨fun c hc => ?_, fun hn => ?_⟩
    · have h := lookupA_updateDict hu bundled k
      rw [hc] at h
      simpa using h
    · have h := lookupA_updateDict hu bundled k
      rw [hn] at h
      simpa using h

/-- C8 witness: a concrete table with one user override; a known name
resolves to its code (the user's entry wins over the bundled one) and an
unknown name comes back unchanged. -/
theorem category_resolution_correct_witness :
    resolveCategory
      (buildCategories [("Autos", "210"), ("Boote", "211")]
        [("Autos", "999")]) "Autos" = "999" ∧
    resolveCategory
      (buildCategories [("Autos", "210"), ("Boote", "211")]
        [("Autos", "999")]) "Unknown" = "Unknown" ∧
    lookupA "Autos"
      (buildCategories [("Autos", "210"), ("Boote", "211")]
        [("Autos", "999")]) = some "999" :=
  ⟨category_resolution_correct.1 [("Autos", "210"), ("Boote", "211")]
      [("Autos", "999")] "Autos" "999" (by decide),
   category_resolution_correct.2.1 [("Autos", "210"), ("Boote", "211")]
      [("Autos", "999")] "Unknown" (by decide),
   (category_resolution_correct.2.2 [("Autos", "210"), ("Boote", "211")]
      [("Autos", "999")] (by decide) "Autos").1 "999" (by decide)⟩

end KleinanzeigenBot

namespace KleinanzeigenBot

/-! ## Image resolver (`load_ads`, lines 296-310)

```python
if ad_cfg["images"]:
    images = []
    for image_pattern in ad_cfg["images"]:
        pattern_images = set()
        for image_file in glob.glob(image_pattern, root_dir = ad_dir, ...):
            _, image_file_ext = os.path.splitext(image_file)
            ensure(image_file_ext.lower() in {".gif", ".jpg", ".jpeg", ".png"}, ...)
            pattern_images.add(<absolute path of image_file>)
        images.extend(sorted(pattern_images))
    ensure(images or not ad_cfg["images"], ...)
    ad_cfg["images"] = list(dict.fromkeys(images))
```
Glob expansion is an external collaborator: each pattern's matches enter as
an already-expanded list of absolute path strings (the `abspath`
conversion of the loop body collapsed into the matcher). -/

/-- Characters of the last path component (`os.path` basename). -/
def pyBasename (s : String) : List Char :=
  (s.toList.reverse.takeWhile (fun c => c ≠ '/')).reverse

/-- `os.path.splitext(...)[1]` on a basename: the suffix from the last dot,
provided a non-dot character precedes it (leading dots of the basename
never start an extension). -/
def pySplitExtExt (basename : List Char) : List Char :=
  let rev := basename.reverse
  let afterRev := rev.takeWhile (fun c => c ≠ '.')
  match rev.drop afterRev.length with
  | [] => []
  | _ :: rootRev =>
    if rootRev.any (fun c => c ≠ '.') then '.' :: afterRev.reverse else []

/-- `os.path.splitext(f)[1].lower()`. -/
def fileExt (s : String) : String :=
  String.mk ((pySplitExtExt (pyBasename s)).map Char.toLower)

/-- `image_file_ext.lower() in {".gif", ".jpg", ".jpeg", ".png"}`. -/
def allowedExt (s : String) : Bool :=
  fileExt s = ".gif" ∨ fileExt s = ".jpg" ∨ fileExt s = ".jpeg" ∨
    fileExt s = ".png"

/-- Code-point comparison of characters (`Char.toNat`). -/
def charLt (a b : Char) : Bool := a.toNat < b.toNat

/-- Lexicographic code-point comparison of character lists. -/
def charListLt : List Char → List Char → Bool
  | [], [] => false
  | [], _ :: _ => true
  | _ :: _, [] => false
  | a :: as, b :: bs =>
    if charLt a b then true else if charLt b a then false else charListLt as bs

/-- Python's `<` on strings: lexicographic by Unicode code point. -/
def strLt (a b : String) : Bool := charListLt a.toList b.toList

/-- Insert into a lexicographically sorted list of strings. -/
def insertSorted (x : String) : List String → List String
  | [] => [x]
  | h :: t => if strLt x h then x :: h :: t else h :: insertSorted x t

/-- Python `sorted(...)` on strings (insertion sort, ascending). -/
def sortStrings : List String → List String
  | [] => []
  | h :: t => insertSorted h (sortStrings t)

/-- `dict.fromkeys` / `set` iteration helper: drop every element already in
`seen` or seen earlier in the list, keeping first occurrences in order. -/
def dedupFirstAux : List String → List String → List String
  | _, [] => []
  | seen, x :: xs =>
    if x ∈ seen then dedupFirstAux seen xs
    else x :: dedupFirstAux (x :: seen) xs

/-- `list(dict.fromkeys(l))`: deduplicate preserving first occurrence. -/
def dedupFirst (l : List String) : List String :=
  dedupFirstAux [] l

/-- Failure of the image resolution block. -/
inductive ImgErr where
  | badExt
  | noImages
deriving Repr, DecidableEq

/-- The per-pattern loop of the image resolution block: checks every
match's extension, collects the pattern's matches as a set, sorts them and
appends them pattern by pattern. -/
def collectImages : List (List String) → Except ImgErr (List String)
  | [] => Except.ok []
  | ms :: rest =>
    if ms.all allowedExt then
      match collectImages rest with
      | Except.ok tail => Except.ok (sortStrings (dedupFirst ms) ++ tail)
      | Except.error e => Except.error e
    else Except.error .badExt

/-- The whole image resolution block (lines 296-310): per-pattern
collection, the emptiness `ensure`, then global first-occurrence
deduplication. -/
def resolveImages (matchLists : List (List String)) :
    Except ImgErr (List String) :=
  match collectImages matchLists with
  | Except.error e => Except.error e
  | Except.ok imgs =>
    if imgs = [] ∧ matchLists ≠ [] then Except.error .noImages
    else Except.ok (dedupFirst imgs)

lemma mem_insertSorted {x y : String} {l : List String} :
    x ∈ insertSorted y l ↔ x = y ∨ x ∈ l := by
  induction l with
  | nil => simp [insertSorted]
  | cons h t ih =>
    unfold insertSorted
    split_ifs with hlt
    · simp
    · simp only [List.mem_cons, ih]
      tauto

lemma mem_sortStrings {x : String} {l : List String} :
    x ∈ sortStrings l ↔ x ∈ l := by
  induction l with
  | nil => simp [sortStrings]
  | cons h t ih => simp [sortStrings, mem_insertSorted, ih]

lemma mem_dedupFirstAux {x : String} {seen l : List String} :
    x ∈ dedupFirstAux seen l ↔ x ∈ l ∧ x ∉ seen := by
  induction l generalizing seen with
  | nil => simp [dedupFirstAux]
  | cons y ys ih =>
    unfold dedupFirstAux
    split_ifs with hy
    · rw [ih]
      simp only [List.mem_cons]
      constructor
      · rintro ⟨h1, h2⟩; exact ⟨Or.inr h1, h2⟩
      · rintro ⟨h1 | h1, h2⟩
        · exact absurd hy (h1 ▸ h2)
        · exact ⟨h1, h2⟩
    · simp only [List.mem_cons, ih, List.mem_cons]
      constructor
      · rintro (rfl | ⟨h1, h2⟩)
        · exact ⟨Or.inl rfl, hy⟩
        · exact ⟨Or.inr h1, fun hx => h2 (Or.inr hx)⟩
      · rintro ⟨rfl | h1, h2⟩
        · exact Or.inl rfl
        · by_cases hxy : x = y
          · exact Or.inl hxy
          · exact Or.inr ⟨h1, fun hx => (hx.elim hxy h2)⟩

lemma mem_dedupFirst {x : String} {l : List String} :
    x ∈ dedupFirst l ↔ x ∈ l := by
  simp [dedupFirst, mem_dedupFirstAux]

lemma nodup_dedupFirstAux (seen l : List String) :
    (dedupFirstAux seen l).Nodup := by
  induction l generalizing seen with
  | nil => simp [dedupFirstAux]
  | cons y ys ih =>
    unfold dedupFirstAux
    split_ifs with hy
    · exact ih seen
    · refine List.Nodup.cons ?_ (ih (y :: seen))
      intro hmem
      exact (mem_dedupFirstAux.mp hmem).2 (List.mem_cons_self _ _)

lemma nodup_dedupFirst (l : List String) : (dedupFirst l).Nodup :=
  nodup_dedupFirstAux [] l

lemma sortStrings_dedupFirst_eq_nil {l : List String} :
    sortStrings (dedupFirst l) = [] ↔ l = [] := by
  constructor
  · intro h
    by_contra hne
    obtain ⟨x, hx⟩ := List.exists_mem_of_ne_nil l hne
    have : x ∈ sortStrings (dedupFirst l) :=
      mem_sortStrings.mpr (mem_dedupFirst.mpr hx)
    simp [h] at this
  · rintro rfl; rfl

lemma collectImages_ok {mls : List (List String)}
    (hext : ∀ l ∈ mls, ∀ f ∈ l, allowedExt f = true) :
    collectImages mls =
      Except.ok ((mls.map (fun l => sortStrings (dedupFirst l))).join) := by
  induction mls with
  | nil => rfl
  | cons ms rest ih =>
    have hall : ms.all allowedExt = true :=
      List.all_eq_true.mpr (fun f hf => hext ms (List.mem_cons_self _ _) f hf)
    unfold collectImages
    rw [hall, ih (fun l hl f hf => hext l (List.mem_cons_of_mem _ hl) f hf)]
    simp

end KleinanzeigenBot

namespace KleinanzeigenBot

/-- C5: for every list of image glob patterns whose matches all carry
allowed extensions, the resolved image list is the concatenation, pattern
by pattern, of that pattern's distinct matches sorted lexicographically,
deduplicated preserving the first occurrence — hence duplicate-free, and a
path matched by several patterns appears exactly once, at the position
induced by the earliest pattern's sort order. Resolution fails iff the
pattern list is non-empty and every pattern's match set is empty. -/
theorem image_resolution_correct (mls : List (List String))
    (hext : ∀ l ∈ mls, ∀ f ∈ l, allowedExt f = true) :
    (resolveImages mls = Except.error ImgErr.noImages ↔
      mls ≠ [] ∧ ∀ l ∈ mls, l = []) ∧
    ∀ res, resolveImages mls = Except.ok res →
      res = dedupFirst ((mls.map (fun l => sortStrings (dedupFirst l))).join) ∧
      res.Nodup ∧
      (∀ x, x ∈ res ↔ ∃ l ∈ mls, x ∈ l) := by
  have hco := collectImages_ok hext
  have hempty : ((mls.map (fun l => sortStrings (dedupFirst l))).join = []) ↔
      (∀ l ∈ mls, l = []) := by
    rw [List.join_eq_nil_iff]
    constructor
    · intro h l hl
      exact sortStrings_dedupFirst_eq_nil.mp
        (h _ (List.mem_map_of_mem _ hl))
    · intro h l hl
      obtain ⟨l₀, hl₀, rfl⟩ := List.mem_map.mp hl
      rw [h l₀ hl₀]
      rfl
  have hri : resolveImages mls =
      if ((mls.map (fun l => sortStrings (dedupFirst l))).join = [] ∧
          mls ≠ []) then Except.error .noImages
      else Except.ok
        (dedupFirst ((mls.map (fun l => sortStrings (dedupFirst l))).join)) := by
    unfold resolveImages
    rw [hco]
  constructor
  · rw [hri]
    split_ifs with hcond
    · simp only [true_iff]
      exact ⟨hcond.2, hempty.mp hcond.1⟩
    · simp only [false_iff]
      intro ⟨hne, hall⟩
      exact hcond ⟨hempty.mpr hall, hne⟩
  · intro res hres
    rw [hri] at hres
    split_ifs at hres with hcond
    have heq : dedupFirst ((mls.map (fun l => sortStrings (dedupFirst l))).join) = res :=
      Except.ok.inj hres
    subst heq
    refine ⟨rfl, nodup_dedupFirst _, fun x => ?_⟩
    rw [mem_dedupFirst]
    simp only [List.mem_join, List.mem_map]
    constructor
    · rintro ⟨l₁, ⟨l₀, hl₀, rfl⟩, hx⟩
      exact ⟨l₀, hl₀, mem_dedupFirst.mp (mem_sortStrings.mp hx)⟩
    · rintro ⟨l₀, hl₀, hx⟩
      exact ⟨_, ⟨l₀, hl₀, rfl⟩,
        mem_sortStrings.mpr (mem_dedupFirst.mpr hx)⟩

/-- C5 witness: the spec's example — two patterns where `/a/b.jpg` matches
both; it appears exactly once, at the position given by the first pattern's
sort order, and the resolution succeeds. -/
theorem image_resolution_correct_witness :
    ((["/a/b.jpg", "/a/c.jpg"] : List String) =
      dedupFirst (([["/a/b.jpg", "/a/c.jpg"], ["/a/b.jpg"]].map
        (fun l => sortStrings (dedupFirst l))).join) ∧
    (["/a/b.jpg", "/a/c.jpg"] : List String).Nodup ∧
    (∀ x, x ∈ (["/a/b.jpg", "/a/c.jpg"] : List String) ↔
      ∃ l ∈ [["/a/b.jpg", "/a/c.jpg"], ["/a/b.jpg"]], x ∈ l)) :=
  (image_resolution_correct [["/a/b.jpg", "/a/c.jpg"], ["/a/b.jpg"]]
    (by decide)).2 ["/a/b.jpg", "/a/c.jpg"] rfl

end KleinanzeigenBot

namespace KleinanzeigenBot

/-! ## Derived fields of `load_ads` (lines 261-316)

After the selection filter, `load_ads` composes the description, validates,
then computes derived fields on the resolved definition:

```python
if ad_cfg["id"]:
    ad_cfg["id"] = int(ad_cfg["id"])
if ad_cfg["category"]:
    ad_cfg["category"] = self.categories.get(ad_cfg["category"], ad_cfg["category"])
if ad_cfg["shipping_costs"]:
    ad_cfg["shipping_costs"] = str(round(utils.parse_decimal(ad_cfg["shipping_costs"]), 2))
if ad_cfg["images"]:
    ... # image resolution block
```
`utils.parse_decimal` is not part of the sources at hand, so the shipping
cost normalisation enters as an opaque parameter `shipFmt` (`none` models a
raised parse error); glob expansion enters as the parameter `matcher`. -/

/-- Failure of the post-selection part of `load_ads` for one ad. -/
inductive ProcErr where
  | validation (r : VRule)
  | badId
  | badShippingCost
  | image (e : ImgErr)
deriving Repr, DecidableEq

/-- Lines 287-288: `if ad_cfg["id"]: ad_cfg["id"] = int(ad_cfg["id"])`. -/
def idStage (ad : AdCfg) : Except ProcErr AdCfg :=
  if ad.id.truthy then
    match pyToInt ad.id with
    | some n => .ok { ad with id := .vint n }
    | none => .error .badId
  else .ok ad

/-- Lines 290-291: category resolution on a truthy `category` field. -/
def categoryStage (cats : List (String × String)) (ad : AdCfg) : AdCfg :=
  if ad.category ≠ "" then
    { ad with category := resolveCategory cats ad.category }
  else ad

/-- Lines 293-294: shipping cost normalisation on a truthy
`shipping_costs` field, via the opaque normaliser `shipFmt`. -/
def shippingStage (shipFmt : String → Option String) (ad : AdCfg) :
    Except ProcErr AdCfg :=
  if truthyS ad.shipping_costs then
    match shipFmt (ad.shipping_costs.getD "") with
    | some s => .ok { ad with shipping_costs := some s }
    | none => .error .badShippingCost
  else .ok ad

/-- Lines 296-310: image resolution on a non-empty pattern list. -/
def imagesStage (matcher : String → List String) (ad : AdCfg) :
    Except ProcErr AdCfg :=
  if ad.images ≠ [] then
    match resolveImages (ad.images.map matcher) with
    | .error e => .error (.image e)
    | .ok imgs => .ok { ad with images := imgs }
  else .ok ad

/-- The whole post-selection body of `load_ads` for one ad (lines 261-316):
description composition, validation, then the derived-field stages. On
success it returns the resolved definition as appended to the result
triple. -/
def processAd (pfx sfx : String) (cats : List (String × String))
    (shipFmt : String → Option String) (matcher : String → List String)
    (ad : AdCfg) : Except ProcErr AdCfg :=
  match validateAd pfx sfx ad with
  | some r => .error (.validation r)
  | none => do
    let ad₁ := { ad with description := some (composedDescription pfx sfx ad) }
    let ad₂ ← idStage ad₁
    let ad₃ := categoryStage cats ad₂
    let ad₄ ← shippingStage shipFmt ad₃
    imagesStage matcher ad₄

lemma idStage_id_cases {ad out : AdCfg} (h : idStage ad = Except.ok out) :
    (Value.truthy out.id = false ∧ out.id = ad.id) ∨
      ∃ n, out.id = Value.vint n ∧ pyToInt ad.id = some n := by
  unfold idStage at h
  split_ifs at h with htr
  · cases hpi : pyToInt ad.id with
    | none => rw [hpi] at h; cases h
    | some n =>
      rw [hpi] at h
      cases Except.ok.inj h
      exact Or.inr ⟨n, rfl, rfl⟩
  · cases Except.ok.inj h
    exact Or.inl ⟨by simpa using htr, rfl⟩

lemma categoryStage_id (cats : List (String × String)) (ad : AdCfg) :
    (categoryStage cats ad).id = ad.id := by
  unfold categoryStage
  split_ifs <;> rfl

lemma shippingStage_id {shipFmt : String → Option String} {ad out : AdCfg}
    (h : shippingStage shipFmt ad = Except.ok out) : out.id = ad.id := by
  unfold shippingStage at h
  split_ifs at h with htr
  · cases hf : shipFmt (ad.shipping_costs.getD "") with
    | none => rw [hf] at h; cases h
    | some s => rw [hf] at h; cases Except.ok.inj h; rfl
  · cases Except.ok.inj h; rfl

lemma imagesStage_id {matcher : String → List String} {ad out : AdCfg}
    (h : imagesStage matcher ad = Except.ok out) : out.id = ad.id := by
  unfold imagesStage at h
  split_ifs at h with htr
  · cases hr : resolveImages (ad.images.map matcher) with
    | error e => rw [hr] at h; cases h
    | ok imgs => rw [hr] at h; cases Except.ok.inj h; rfl
  · cases Except.ok.inj h; rfl

end KleinanzeigenBot

namespace KleinanzeigenBot

/-- C9: in every triple returned by ad loading, the resolved definition's
`id` is either falsy (absent/None/empty/zero) or an integer obtained by
`int(...)`-coercion of the id the resolved definition carried on entry; a
string id is thus normalised to an integer. -/
theorem id_normalization (pfx sfx : String) (cats : List (String × String))
    (shipFmt : String → Option String) (matcher : String → List String)
    (ad out : AdCfg)
    (h : processAd pfx sfx cats shipFmt matcher ad = Except.ok out) :
    Value.truthy out.id = false ∨
      ∃ n, out.id = Value.vint n ∧ pyToInt ad.id = some n := by
  unfold processAd at h
  cases hv : validateAd pfx sfx ad with
  | some r => rw [hv] at h; cases h
  | none =>
    rw [hv] at h
    simp only [bind, Except.bind] at h
    cases hid : idStage { ad with
        description := some (composedDescription pfx sfx ad) } with
    | error e => rw [hid] at h; cases h
    | ok ad₂ =>
      rw [hid] at h
      dsimp only at h
      cases hsh : shippingStage shipFmt (categoryStage cats ad₂) with
      | error e => rw [hsh] at h; cases h
      | ok ad₄ =>
        rw [hsh] at h
        dsimp only at h
        have hchain : out.id = ad₂.id :=
          (imagesStage_id h).trans
            ((shippingStage_id hsh).trans (categoryStage_id cats ad₂))
        rcases idStage_id_cases hid with ⟨hf, hsame⟩ | ⟨n, hn, hnc⟩
        · exact Or.inl (hchain ▸ hf)
        · exact Or.inr ⟨n, hchain.trans hn, hnc⟩

end KleinanzeigenBot

namespace KleinanzeigenBot

/-- An ad definition carrying the string id `"123"` that passes validation
and all derived-field stages. -/
def adStrId : AdCfg :=
  { type_ := "OFFER"
    title := "0123456789"
    description := some "nice thing"
    price := none
    price_type := "NOT_APPLICABLE"
    shipping_type := "PICKUP"
    shipping_costs := none
    contact_name := "John Doe"
    republication_interval := some 7
    id := .vstr "123"
    category := ""
    images := [] }

instance : DecidableEq (Except ProcErr AdCfg) := fun a b =>
  match a, b with
  | .ok x, .ok y =>
    if h : x = y then isTrue (by rw [h])
    else isFalse (fun he => by cases he; exact h rfl)
  | .error x, .error y =>
    if h : x = y then isTrue (by rw [h])
    else isFalse (fun he => by cases he; exact h rfl)
  | .ok _, .error _ => isFalse (fun he => by cases he)
  | .error _, .ok _ => isFalse (fun he => by cases he)

/-- The resolved definition produced from `adStrId` by the derived-field
stages: the description is composed with empty prefix/suffix and the id is
normalised to the integer 123. -/
def outStrId : AdCfg :=
  { adStrId with description := some "nice thing", id := Value.vint 123 }

/-- C9 witness: processing the concrete ad with string id `"123"` succeeds
and the resulting id satisfies the normalisation property (it is the
integer 123 obtained by int-coercion). -/
theorem id_normalization_witness :
    Value.truthy outStrId.id = false ∨
      ∃ n, outStrId.id = Value.vint n ∧ pyToInt adStrId.id = some n :=
  id_normalization "" "" [] (fun _ => none) (fun _ => []) adStrId outStrId
    (by decide)

end KleinanzeigenBot

namespace KleinanzeigenBot

/-! ## Round-trip persistence after publish (`publish_ad`, lines 445-587)

```python
def publish_ad(self, ad_file, ad_cfg, ad_cfg_orig):
    self.assert_free_ad_limit_not_reached()
    if self.delete_old_ads:                 # default True (line 50)
        self.delete_ad(ad_cfg)              # sets ad_cfg["id"] = None (line 429)
    ...
    ad_cfg_orig["updated_on"] = datetime.utcnow().isoformat()
    if not ad_cfg["created_on"] and not ad_cfg["id"]:
        ad_cfg_orig["created_on"] = ad_cfg_orig["updated_on"]
    ad_id = int(current_url_query_params.get("adId", None)[0])
    ad_cfg_orig["id"] = ad_id
    utils.save_dict(ad_file, ad_cfg_orig)
```
`ad_cfg_orig` is the raw definition, `ad_cfg` the resolved one. The guard
of the `created_on` assignment reads the *resolved* fields — and under the
default `delete_old_ads = True` the `delete_ad` call at line 449 has
already set the resolved copy's id to `None` before the guard runs, so on
that path the guard degenerates to `not ad_cfg["created_on"]`. On entry
the resolved definition carries the raw definition's bot-managed fields
(the defaults layers do not supply truthy `created_on`/`id` values), which
the amended theorem states as a truthiness-agreement hypothesis. -/

/-- The mutation of lines 576-587 on the raw definition, with `resolved`
the resolved copy *as the guard reads it* at line 577. -/
def publishUpdateRaw (raw resolved : List (String × Value)) (now : Value)
    (adId : Int) : List (String × Value) :=
  let r₁ := setA "updated_on" now raw
  let r₂ :=
    if (getV "created_on" resolved).truthy = false ∧
        (getV "id" resolved).truthy = false then
      setA "created_on" now r₁
    else r₁
  setA "id" (Value.vint adId) r₂

/-- The full raw-definition effect of one `publish_ad` call: line 449
(`if self.delete_old_ads: self.delete_ad(ad_cfg)`) first sets the resolved
copy's id to `None` (line 429), then lines 576-587 update the raw
definition, their `created_on` guard reading the resolved copy as thus
mutated. -/
def publishAdRaw (deleteOld : Bool) (raw resolved : List (String × Value))
    (now : Value) (adId : Int) : List (String × Value) :=
  publishUpdateRaw raw
    (if deleteOld then setA "id" Value.vnull resolved else resolved) now adId

lemma publishUpdateRaw_spec (raw resolved : List (String × Value))
    (now : Value) (adId : Int) :
    getV "updated_on" (publishUpdateRaw raw resolved now adId) = now ∧
    getV "id" (publishUpdateRaw raw resolved now adId) = Value.vint adId ∧
    (((getV "created_on" resolved).truthy = false ∧
        (getV "id" resolved).truthy = false) →
      getV "created_on" (publishUpdateRaw raw resolved now adId) = now) ∧
    (¬((getV "created_on" resolved).truthy = false ∧
        (getV "id" resolved).truthy = false) →
      getV "created_on" (publishUpdateRaw raw resolved now adId) =
        getV "created_on" raw) ∧
    (∀ k, k ≠ "updated_on" → k ≠ "created_on" → k ≠ "id" →
      lookupA k (publishUpdateRaw raw resolved now adId) = lookupA k raw) := by
  unfold publishUpdateRaw
  refine ⟨?_, ?_, ?_, ?_, ?_⟩
  · split_ifs with h
    · unfold getV
      rw [lookupA_setA_ne (by decide), lookupA_setA_ne (by decide),
        lookupA_setA_self]
      rfl
    · unfold getV
      rw [lookupA_setA_ne (by decide), lookupA_setA_self]
      rfl
  · unfold getV
    rw [lookupA_setA_self]
    rfl
  · intro h
    split_ifs
    unfold getV
    rw [lookupA_setA_ne (by decide), lookupA_setA_self]
    rfl
  · intro h
    split_ifs
    unfold getV
    rw [lookupA_setA_ne (by decide), lookupA_setA_ne (by decide)]
  · intro k hku hkc hki
    split_ifs with h
    · rw [lookupA_setA_ne hki, lookupA_setA_ne hkc, lookupA_setA_ne hku]
    · rw [lookupA_setA_ne hki, lookupA_setA_ne hku]

end KleinanzeigenBot

namespace KleinanzeigenBot

/-- C3 counterexample: with the default `delete_old_ads = True`,
republishing a concrete ad whose raw definition carries the truthy
`id = 123` and no `created_on` sets `raw.created_on` to the publish time —
`delete_ad` has already cleared the *resolved* copy's id when the guard at
line 577 reads it — contradicting the claim that `created_on` is set only
if both `created_on` and `id` were previously empty (first publication). -/
theorem publish_created_on_counterexample :
    getV "created_on" (publishAdRaw true
      [("id", Value.vint 123), ("title", Value.vstr "my ad title")]
      [("id", Value.vint 123), ("title", Value.vstr "my ad title")]
      (Value.vstr "2024-05-01T10:00:00") 456) =
        Value.vstr "2024-05-01T10:00:00" ∧
    (getV "id" [("id", Value.vint 123),
      ("title", Value.vstr "my ad title")]).truthy = true ∧
    (getV "created_on" [("id", Value.vint 123),
      ("title", Value.vstr "my ad title")]).truthy = false :=
  ⟨by decide, by decide, by decide⟩

/-- C3 amended: after a successful publish the raw definition's
`updated_on` is the current time, its `id` is the externally assigned
identifier, and every other field of the raw definition is unchanged — no
merged-default or resolved-only field leaks into the persisted raw
structure. The `created_on` guard reads the resolved copy *after* the
delete-old step: with the default `delete_old_ads = True` the resolved id
has already been cleared, so `created_on` is set to the publish time
whenever it was previously empty, even for a republication of an ad with a
non-empty id; only with `delete_old_ads = False` (`--keep-old`) is
`created_on` set exactly when both `created_on` and `id` were previously
empty (first publication). The resolved copy is assumed to carry the raw
definition's bot-managed fields on entry (truthiness agreement, the
load-pipeline invariant). -/
theorem publish_updates_raw_amended (deleteOld : Bool)
    (raw resolved : List (String × Value)) (now : Value) (adId : Int)
    (hc : (getV "created_on" resolved).truthy =
      (getV "created_on" raw).truthy)
    (hi : (getV "id" resolved).truthy = (getV "id" raw).truthy) :
    getV "updated_on" (publishAdRaw deleteOld raw resolved now adId) = now ∧
    getV "id" (publishAdRaw deleteOld raw resolved now adId) =
      Value.vint adId ∧
    (deleteOld = true →
      ((getV "created_on" raw).truthy = false →
        getV "created_on" (publishAdRaw deleteOld raw resolved now adId) =
          now) ∧
      ((getV "created_on" raw).truthy = true →
        getV "created_on" (publishAdRaw deleteOld raw resolved now adId) =
          getV "created_on" raw)) ∧
    (deleteOld = false →
      (((getV "created_on" raw).truthy = false ∧
          (getV "id" raw).truthy = false) →
        getV "created_on" (publishAdRaw deleteOld raw resolved now adId) =
          now) ∧
      (¬((getV "created_on" raw).truthy = false ∧
          (getV "id" raw).truthy = false) →
        getV "created_on" (publishAdRaw deleteOld raw resolved now adId) =
          getV "created_on" raw)) ∧
    (∀ k, k ≠ "updated_on" → k ≠ "created_on" → k ≠ "id" →
      lookupA k (publishAdRaw deleteOld raw resolved now adId) =
        lookupA k raw) := by
  cases deleteOld with
  | true =>
    have hspec := publishUpdateRaw_spec raw
      (setA "id" Value.vnull resolved) now adId
    have hcres : (getV "created_on" (setA "id" Value.vnull resolved)).truthy =
        (getV "created_on" raw).truthy := by
      unfold getV
      rw [lookupA_setA_ne (by decide)]
      exact hc
    have hires : (getV "id" (setA "id" Value.vnull resolved)).truthy =
        false := by
      unfold getV
      rw [lookupA_setA_self]
      rfl
    refine ⟨hspec.1, hspec.2.1, ?_, ?_, hspec.2.2.2.2⟩
    · intro _
      refine ⟨?_, ?_⟩
      · intro hcr
        exact hspec.2.2.1 ⟨hcres.trans hcr, hires⟩
      · intro hcr
        apply hspec.2.2.2.1
        intro ⟨h₁, _⟩
        rw [hcres, hcr] at h₁
        cases h₁
    · intro hfalse
      exact absurd hfalse (by decide)
  | false =>
    have hspec := publishUpdateRaw_spec raw resolved now adId
    refine ⟨hspec.1, hspec.2.1, ?_, ?_, hspec.2.2.2.2⟩
    · intro htrue
      exact absurd htrue (by decide)
    · intro _
      refine ⟨?_, ?_⟩
      · intro ⟨h₁, h₂⟩
        exact hspec.2.2.1 ⟨hc.trans h₁, hi.trans h₂⟩
      · intro hneg
        apply hspec.2.2.2.1
        intro ⟨h₁, h₂⟩
        exact hneg ⟨hc.symm.trans h₁, hi.symm.trans h₂⟩

/-- C3 amended witness: a default-flow republication of a concrete ad with
truthy raw id 123 and empty `created_on`; id 456 is assigned, `updated_on`
and `created_on` are set, and the user-authored `title` binding is
untouched. -/
theorem publish_updates_raw_amended_witness :
    getV "updated_on" (publishAdRaw true
      [("id", Value.vint 123), ("title", Value.vstr "my ad title")]
      [("id", Value.vint 123), ("title", Value.vstr "my ad title")]
      (Value.vstr "2024-05-01T10:00:00") 456) =
        Value.vstr "2024-05-01T10:00:00" ∧
    getV "id" (publishAdRaw true
      [("id", Value.vint 123), ("title", Value.vstr "my ad title")]
      [("id", Value.vint 123), ("title", Value.vstr "my ad title")]
      (Value.vstr "2024-05-01T10:00:00") 456) = Value.vint 456 ∧
    getV "created_on" (publishAdRaw true
      [("id", Value.vint 123), ("title", Value.vstr "my ad title")]
      [("id", Value.vint 123), ("title", Value.vstr "my ad title")]
      (Value.vstr "2024-05-01T10:00:00") 456) =
        Value.vstr "2024-05-01T10:00:00" ∧
    lookupA "title" (publishAdRaw true
      [("id", Value.vint 123), ("title", Value.vstr "my ad title")]
      [("id", Value.vint 123), ("title", Value.vstr "my ad title")]
      (Value.vstr "2024-05-01T10:00:00") 456) =
        some (Value.vstr "my ad title") := by
  have h := publish_updates_raw_amended true
    [("id", Value.vint 123), ("title", Value.vstr "my ad title")]
    [("id", Value.vint 123), ("title", Value.vstr "my ad title")]
    (Value.vstr "2024-05-01T10:00:00") 456 (by decide) (by decide)
  exact ⟨h.1, h.2.1, (h.2.2.1 rfl).1 (by decide),
    h.2.2.2.2 "title" (by decide) (by decide) (by decide)⟩

end KleinanzeigenBot

namespace KleinanzeigenBot

/-! ## Delete flow (`delete_ads` lines 387-398, `delete_ad` lines 400-430)

```python
def delete_ads(self, ad_cfgs):
    for (ad_file, ad_cfg, _) in ad_cfgs:
        ...
        self.delete_ad(ad_cfg)          # the resolved definition

def delete_ad(self, ad_cfg) -> bool:
    ...                                  # browser interaction (external)
    ad_cfg["id"] = None
    return True
```
`delete_ads` destructures each triple `(ad_file, ad_cfg, ad_cfg_orig)` and
passes only the *resolved* `ad_cfg` to `delete_ad`; the raw definition is
bound to `_` and never touched, and nothing in the delete flow persists a
file. -/

/-- The state change `delete_ad` applies to the dictionary it is given
(line 429: `ad_cfg["id"] = None`). -/
def deleteAdUpdate (adCfg : List (String × Value)) : List (String × Value) :=
  setA "id" Value.vnull adCfg

/-- The delete batch of `delete_ads`: each triple is
`(ad_file, resolved, raw)`; `delete_ad` receives the resolved definition
only. -/
def deleteAdsBatch
    (ads : List (String × List (String × Value) × List (String × Value))) :
    List (String × List (String × Value) × List (String × Value)) :=
  ads.map (fun t => (t.1, deleteAdUpdate t.2.1, t.2.2))

end KleinanzeigenBot

namespace KleinanzeigenBot

/-- C4 counterexample: deleting a concrete ad whose raw definition carries
`id = 123` leaves the raw definition's id untouched (still the truthy 123,
not cleared); only the resolved copy's id is set to `None`. -/
theorem delete_raw_id_counterexample :
    deleteAdsBatch [("my_ad.yaml",
        [("id", Value.vint 123), ("title", Value.vstr "an ad title")],
        [("id", Value.vint 123), ("title", Value.vstr "an ad title")])] =
      [("my_ad.yaml",
        [("id", Value.vnull), ("title", Value.vstr "an ad title")],
        [("id", Value.vint 123), ("title", Value.vstr "an ad title")])] ∧
    lookupA "id" [("id", Value.vint 123),
        ("title", Value.vstr "an ad title")] = some (Value.vint 123) ∧
    (Value.vint 123).truthy = true := by
  refine ⟨?_, by decide, by decide⟩
  rfl

/-- C4 amended: after a successful delete action, the id of the definition
dictionary passed to `delete_ad` — in the delete batch that is the
*resolved* copy — is set to `None`; the raw (original) definition of the
triple is not modified at all. -/
theorem delete_clears_resolved_id
    (ads : List (String × List (String × Value) × List (String × Value)))
    (t : String × List (String × Value) × List (String × Value))
    (ht : t ∈ ads) :
    (t.1, deleteAdUpdate t.2.1, t.2.2) ∈ deleteAdsBatch ads ∧
    lookupA "id" (deleteAdUpdate t.2.1) = some Value.vnull := by
  refine ⟨?_, ?_⟩
  · unfold deleteAdsBatch
    exact List.mem_map_of_mem _ ht
  · unfold deleteAdUpdate
    exact lookupA_setA_self _ _ _

/-- C4 amended witness: the concrete triple above — the batch contains it
with the resolved id set to `None` and the raw component untouched. -/
theorem delete_clears_resolved_id_witness :
    (("my_ad.yaml",
      deleteAdUpdate [("id", Value.vint 123),
        ("title", Value.vstr "an ad title")],
      [("id", Value.vint 123), ("title", Value.vstr "an ad title")]) ∈
        deleteAdsBatch [("my_ad.yaml",
          [("id", Value.vint 123), ("title", Value.vstr "an ad title")],
          [("id", Value.vint 123), ("title", Value.vstr "an ad title")])]) ∧
    lookupA "id" (deleteAdUpdate [("id", Value.vint 123),
      ("title", Value.vstr "an ad title")]) = some Value.vnull :=
  delete_clears_resolved_id
    [("my_ad.yaml",
      [("id", Value.vint 123), ("title", Value.vstr "an ad title")],
      [("id", Value.vint 123), ("title", Value.vstr "an ad title")])]
    ("my_ad.yaml",
      [("id", Value.vint 123), ("title", Value.vstr "an ad title")],
      [("id", Value.vint 123), ("title", Value.vstr "an ad title")])
    (List.mem_singleton.mpr rfl)

end KleinanzeigenBot

namespace KleinanzeigenBot

/-! ## Ad file discovery (`load_ads`, lines 213-221)

```python
ad_files = set()
data_root_dir = os.path.dirname(self.config_file_path)
for file_pattern in self.config["ad_files"]:
    for ad_file in glob.glob(file_pattern, root_dir = data_root_dir, ...):
        if not str(ad_file).endswith('ad_fields.yaml'):
            ad_files.add(abspath(ad_file, relative_to = data_root_dir))
```
Paths are modelled as their non-empty lists of `/`-separated components.
Since the suffix `ad_fields.yaml` contains no separator, `str.endswith` on
the joined path string is equivalent to `endswith` on the last component,
which is how the check is stated here. Glob expansion is external and
enters as per-pattern lists of matched (relative) paths. -/

/-- Character-list suffix test. -/
def listIsSuffixOf : List Char → List Char → Bool
  | a, b => decide (b.length ≤ a.length) &&
      decide (a.drop (a.length - b.length) = b)

/-- Python `s.endswith(t)`. -/
def strEndsWith (s t : String) : Bool :=
  listIsSuffixOf s.toList t.toList

/-- Last component of a path (empty string for the empty path). -/
def lastComp : List String → String
  | [] => ""
  | [x] => x
  | _ :: xs => lastComp xs

/-- `str(ad_file).endswith('ad_fields.yaml')` on a component path: the
suffix has no separator, so it is a test on the last component. -/
def endsAdFields (p : List String) : Bool :=
  strEndsWith (lastComp p) "ad_fields.yaml"

/-- Modelled from the spec: `utils.abspath(p, relative_to = root)` of the
missing `utils` module converts the discovered relative path to an
absolute path under the data root directory (no `..`/`.` normalisation is
modelled). -/
def abspathJoin (root p : List String) : List String := root ++ p

/-- `ad_files.add(...)` on Python's `set`, modelled as append-if-absent. -/
def addToSet (x : List String) (s : List (List String)) :
    List (List String) :=
  if x ∈ s then s else s ++ [x]

/-- The inner loop of the discovery block: adds every match of one pattern
that does not end in `ad_fields.yaml`, converted to an absolute path. -/
def addMatches (root : List String) :
    List (List String) → List (List String) → List (List String)
  | s, [] => s
  | s, f :: fs =>
    addMatches root
      (if endsAdFields f then s else addToSet (abspathJoin root f) s) fs

/-- The discovery loop over all configured glob patterns. -/
def discoverAux (root : List String) :
    List (List String) → List (List (List String)) → List (List String)
  | s, [] => s
  | s, ms :: rest => discoverAux root (addMatches root s ms) rest

/-- The set of discovered ad definition files (lines 213-218). -/
def discoverAdFiles (root : List String)
    (matchLists : List (List (List String))) : List (List String) :=
  discoverAux root [] matchLists

lemma mem_addToSet {x y : List String} {s : List (List String)} :
    x ∈ addToSet y s ↔ x = y ∨ x ∈ s := by
  unfold addToSet
  split_ifs with hy
  · constructor
    · exact Or.inr
    · rintro (rfl | h)
      · exact hy
      · exact h
  · simp [or_comm]

lemma mem_addMatches {root : List String} {x : List String}
    {s : List (List String)} {fs : List (List String)} :
    x ∈ addMatches root s fs ↔
      x ∈ s ∨ ∃ f ∈ fs, endsAdFields f = false ∧ x = abspathJoin root f := by
  induction fs generalizing s with
  | nil => simp [addMatches]
  | cons f fs ih =>
    unfold addMatches
    rw [ih]
    by_cases hf : endsAdFields f = true
    · simp only [hf, if_true]
      constructor
      · rintro (h | ⟨g, hg, hge, rfl⟩)
        · exact Or.inl h
        · exact Or.inr ⟨g, List.mem_cons_of_mem _ hg, hge, rfl⟩
      · rintro (h | ⟨g, hg, hge, rfl⟩)
        · exact Or.inl h
        · rcases List.mem_cons.mp hg with rfl | hg₁
          · rw [hf] at hge; cases hge
          · exact Or.inr ⟨g, hg₁, hge, rfl⟩
    · rw [if_neg hf]
      rw [Bool.not_eq_true] at hf
      constructor
      · rintro (h | ⟨g, hg, hge, rfl⟩)
        · rcases mem_addToSet.mp h with rfl | h₁
          · exact Or.inr ⟨f, List.mem_cons_self _ _, hf, rfl⟩
          · exact Or.inl h₁
        · exact Or.inr ⟨g, List.mem_cons_of_mem _ hg, hge, rfl⟩
      · rintro (h | ⟨g, hg, hge, rfl⟩)
        · exact Or.inl (mem_addToSet.mpr (Or.inr h))
        · rcases List.mem_cons.mp hg with rfl | hg₁
          · exact Or.inl (mem_addToSet.mpr (Or.inl rfl))
          · exact Or.inr ⟨g, hg₁, hge, rfl⟩

lemma mem_discoverAux {root : List String} {x : List String}
    {s : List (List String)} {mls : List (List (List String))} :
    x ∈ discoverAux root s mls ↔
      x ∈ s ∨ ∃ ms ∈ mls, ∃ f ∈ ms,
        endsAdFields f = false ∧ x = abspathJoin root f := by
  induction mls generalizing s with
  | nil => simp [discoverAux]
  | cons ms rest ih =>
    unfold discoverAux
    rw [ih]
    rw [mem_addMatches]
    constructor
    · rintro ((h | ⟨f, hf, hfe, rfl⟩) | ⟨ms₁, hms, f, hf, hfe, rfl⟩)
      · exact Or.inl h
      · exact Or.inr ⟨ms, List.mem_cons_self _ _, f, hf, hfe, rfl⟩
      · exact Or.inr ⟨ms₁, List.mem_cons_of_mem _ hms, f, hf, hfe, rfl⟩
    · rintro (h | ⟨ms₁, hms, f, hf, hfe, rfl⟩)
      · exact Or.inl (Or.inl h)
      · rcases List.mem_cons.mp hms with rfl | hms₁
        · exact Or.inl (Or.inr ⟨f, hf, hfe, rfl⟩)
        · exact Or.inr ⟨ms₁, hms₁, f, hf, hfe, rfl⟩

lemma lastComp_append_of_ne_nil {root p : List String} (h : p ≠ []) :
    lastComp (root ++ p) = lastComp p := by
  induction root with
  | nil => rfl
  | cons r rs ih =>
    rw [List.cons_append]
    cases hrp : rs ++ p with
    | nil => exact absurd (List.append_eq_nil.mp hrp).2 h
    | cons a l =>
      rw [← ih]
      rw [hrp]
      rfl

lemma endsAdFields_abspathJoin {root p : List String} (h : p ≠ []) :
    endsAdFields (abspathJoin root p) = endsAdFields p := by
  unfold endsAdFields abspathJoin
  rw [lastComp_append_of_ne_nil h]

end KleinanzeigenBot

namespace KleinanzeigenBot

/-- C10: ad file discovery never yields a path ending in `ad_fields.yaml`;
for every configured glob pattern, any matching file with that suffix is
silently excluded from the set of discovered ad definition files (glob
matches are non-empty paths). -/
theorem ad_fields_never_discovered (root : List String)
    (mls : List (List (List String)))
    (hne : ∀ ms ∈ mls, ∀ f ∈ ms, f ≠ []) :
    (∀ q ∈ discoverAdFiles root mls, endsAdFields q = false) ∧
    (∀ ms ∈ mls, ∀ f ∈ ms, endsAdFields f = true →
      abspathJoin root f ∉ discoverAdFiles root mls) := by
  constructor
  · intro q hq
    unfold discoverAdFiles at hq
    rcases mem_discoverAux.mp hq with h | ⟨ms, hms, f, hf, hfe, rfl⟩
    · cases h
    · rw [endsAdFields_abspathJoin (hne ms hms f hf)]
      exact hfe
  · intro ms hms f hf hfe hcontra
    unfold discoverAdFiles at hcontra
    rcases mem_discoverAux.mp hcontra with h | ⟨ms₁, hms₁, g, hg, hge, heq⟩
    · cases h
    · have hfg : f = g := by
        unfold abspathJoin at heq
        exact List.append_cancel_left heq
      rw [hfg, hge] at hfe
      cases hfe

/-- C10 witness: with the data root `data/` and one pattern matching
`ads/x.yaml` and `ads/ad_fields.yaml`, the discovered path does not end in
`ad_fields.yaml` and the excluded schema file's absolute path is not in
the discovered set. -/
theorem ad_fields_never_discovered_witness :
    endsAdFields ["data", "ads", "x.yaml"] = false ∧
    abspathJoin ["data"] ["ads", "ad_fields.yaml"] ∉
      discoverAdFiles ["data"] [[["ads", "x.yaml"], ["ads", "ad_fields.yaml"]]] := by
  have h := ad_fields_never_discovered ["data"]
    [[["ads", "x.yaml"], ["ads", "ad_fields.yaml"]]]
    (by intro ms hms f hf
        simp only [List.mem_singleton] at hms
        subst hms
        rcases List.mem_cons.mp hf with rfl | hf₁
        · decide
        · simp only [List.mem_singleton] at hf₁
          subst hf₁
          decide)
  refine ⟨?_, ?_⟩
  · exact h.1 ["data", "ads", "x.yaml"] (by decide)
  · exact h.2 [["ads", "x.yaml"], ["ads", "ad_fields.yaml"]]
      (by decide) ["ads", "ad_fields.yaml"] (by decide) (by decide)

end KleinanzeigenBot
